import Mathlib

/-!
Verification of the `turnus_logging` structured-logging core.

Shallow embedding of the Python modules `turnus_logging/context.py`,
`turnus_logging/sanitizer.py`, `turnus_logging/config.py` and
`turnus_logging/formatters.py`.  Python `dict`s are modelled as ordered
association lists (`List (String × V)`), preserving Python's insertion
order and update semantics; `None`-vs-dict is modelled with `Option`.
-/

namespace TurnusLogging

/-! ## Python dict model -/

/-- Lookup of `d[k]` in a Python dict modelled as an ordered assoc list
(first matching key; real dicts hold each key at most once). -/
def dictGet {V : Type} (d : List (String × V)) (k : String) : Option V :=
  (d.find? (fun kv => kv.1 = k)).map (fun kv => kv.2)

/-- Python `d[k] = v`: replace the value at an existing key in place,
otherwise append the new key at the end (insertion order). -/
def dictInsert {V : Type} (d : List (String × V)) (k : String) (v : V) :
    List (String × V) :=
  match d with
  | [] => [(k, v)]
  | kv :: rest =>
      if kv.1 = k then (k, v) :: rest else kv :: dictInsert rest k v

/-- Python `a.copy(); a.update(b)` / `{**a, **b}`: entries of `b` written
over `a` in order. -/
def dictUpdate {V : Type} (a b : List (String × V)) : List (String × V) :=
  b.foldl (fun acc kv => dictInsert acc kv.1 kv.2) a

/-! ## Context store (`turnus_logging/context.py`)

The `contextvars.ContextVar` holding `Optional[Dict[str, Any]]` for one
execution path is modelled as explicit state of type
`Option (List (String × V))` threaded through each operation. -/

/-- The state of the context variable: `None` or a dict. -/
abbrev Ctx (V : Type) : Type := Option (List (String × V))

/-- `set_context(context)`. -/
def set_context {V : Type} (context : Ctx V) (_st : Ctx V) : Ctx V := context

/-- `get_context()` — read the current state; never raises. -/
def get_context {V : Type} (st : Ctx V) : Ctx V := st

/-- `append_context(context)`: merge new values into the existing context
(`current.copy()` then `update`), or install a copy when unset. -/
def append_context {V : Type} (context : List (String × V)) (st : Ctx V) :
    Ctx V :=
  match get_context st with
  | none => set_context (some context) st
  | some current => set_context (some (dictUpdate current context)) st

/-- `clear_context()`. -/
def clear_context {V : Type} (st : Ctx V) : Ctx V :=
  set_context none st

/-- Python truthiness of `Optional[Dict]`: `None` and `{}` are falsy. -/
def ctxTruthy {V : Type} (c : Ctx V) : Bool :=
  match c with
  | none => false
  | some d => !d.isEmpty

/-- The snapshot `log_context(**kwargs)` installs on entry:
`{**previous_context, **kwargs}` when the previous context is truthy,
otherwise `kwargs` alone. -/
def log_context_enter {V : Type} (kwargs : List (String × V)) (st : Ctx V) :
    Ctx V :=
  let previous_context := get_context st
  let new_context :=
    match previous_context with
    | some d => if d.isEmpty then kwargs else dictUpdate d kwargs
    | none => kwargs
  set_context (some new_context) st

/-- Running the `with log_context(**kwargs): body` block.  The body is an
arbitrary state transformer that either returns normally or raises
(`Except E A`); the `finally` clause restores the saved previous context
on both paths. -/
def log_context_run {V E A : Type} (kwargs : List (String × V)) (st : Ctx V)
    (body : Ctx V → Except E A × Ctx V) : Except E A × Ctx V :=
  let previous_context := get_context st
  let entered := log_context_enter kwargs st
  let r := body entered
  -- finally: set_context(previous_context)
  (r.1, set_context previous_context r.2)

/-! ## Sanitizer (`turnus_logging/sanitizer.py`)

Python values are modelled by `Val`: numbers by `Int` (floats are outside
the embedding), `bytes`/`bytearray` by a byte list, and any other object
by `other typeName strRepr` carrying `type(value).__name__` and its
`str()` form. -/

inductive Val where
  | none
  | bool (b : Bool)
  | int (n : Int)
  | str (s : String)
  | bytes (bs : List Nat)
  | list (items : List Val)
  | dict (entries : List (String × Val))
  | other (typeName : String) (strRepr : String)

/-- The module-global set of sensitive field-name patterns (a Python
`set`, modelled as a list read only through `any`). -/
def SENSITIVE_FIELD_PATTERNS : List String :=
  ["password", "passwd", "pwd", "secret", "token", "api_key", "apikey",
   "access_key", "private_key", "auth", "authorization", "session",
   "cookie", "csrf", "xsrf"]

/-- Field names that indicate file uploads. -/
def FILE_FIELD_PATTERNS : List String :=
  ["file", "upload", "attachment", "document", "image", "video", "audio"]

def MAX_STRING_LENGTH : Nat := 1000

def MAX_LIST_ITEMS : Nat := 50

def MAX_DICT_ITEMS : Nat := 100

def MAX_TOTAL_SIZE : Nat := 10000

/-- Python `pattern in s` on strings: contiguous-substring containment. -/
def strContains (s pattern : String) : Bool :=
  decide (pattern.toList <:+: s.toList)

/-- Python `s.lower()` (character-wise lowercasing). -/
def pyLower (s : String) : String :=
  String.mk (s.toList.map Char.toLower)

/-- `is_sensitive_field`, generalized over the current value of the
module-global `SENSITIVE_FIELD_PATTERNS` (shared global read state is
modelled by passing its current value explicitly). -/
def is_sensitive_field_in (patterns : List String) (field_name : String) : Bool :=
  let field_lower := pyLower field_name
  patterns.any (fun pattern => strContains field_lower pattern)

/-- `is_sensitive_field(field_name)` against the untouched global set. -/
def is_sensitive_field (field_name : String) : Bool :=
  is_sensitive_field_in SENSITIVE_FIELD_PATTERNS field_name

/-- `is_file_field(field_name)`. -/
def is_file_field (field_name : String) : Bool :=
  let field_lower := pyLower field_name
  FILE_FIELD_PATTERNS.any (fun pattern => strContains field_lower pattern)

mutual

/-- `sanitize_value(value, field_name)`, generalized over the current
value of the global sensitive-pattern set. -/
def sanitize_value_in (patterns : List String) (value : Val)
    (field_name : String) : Val :=
  -- Redact sensitive fields
  if (field_name != "") && is_sensitive_field_in patterns field_name then
    Val.str "[REDACTED]"
  -- Remove file data
  else if (field_name != "") && is_file_field field_name then
    (match value with
     | .bytes bs => Val.str ("[FILE: " ++ toString bs.length ++ " bytes]")
     | .str s =>
         if s.length > 1000 then
           Val.str ("[FILE: ~" ++ toString s.length ++ " chars]")
         else Val.str "[FILE]"
     | _ => Val.str "[FILE]")
  else
    (match value with
     | .none => Val.none
     | .bool b => Val.bool b
     | .int n => Val.int n
     | .str s =>
         -- Truncate long strings
         if s.length > MAX_STRING_LENGTH then
           Val.str (s.take MAX_STRING_LENGTH ++
             "... [truncated, total: " ++ toString s.length ++ " chars]")
         else Val.str s
     | .bytes bs => Val.str ("[BINARY: " ++ toString bs.length ++ " bytes]")
     | .list items =>
         -- Limit list size:
         -- `[sanitize_value(item, field_name) for item in value[:MAX_LIST_ITEMS]]`
         let kept := sanitize_list patterns (items.take MAX_LIST_ITEMS) field_name
         if items.length > MAX_LIST_ITEMS then
           Val.list (kept ++
             [Val.str ("... [truncated, total: " ++ toString items.length ++ " items]")])
         else Val.list kept
     | .dict entries =>
         -- `sanitize_dict(value)` with its default `max_items`
         -- (its body inlined here; `sanitize_dict_in` below packages it)
         let kept := sanitize_entries patterns (entries.take MAX_DICT_ITEMS)
         Val.dict
           (if entries.length > MAX_DICT_ITEMS then
             dictInsert kept "__truncated__"
               (Val.str ("... [truncated, total: " ++
                 toString entries.length ++ " keys]"))
           else kept)
     | .other tn str_repr =>
         -- For other types, convert to string representation
         if str_repr.length > MAX_STRING_LENGTH then
           Val.str ("[" ++ tn ++ ": " ++ str_repr.take 100 ++ "... truncated]")
         else Val.str str_repr)
termination_by sizeOf value
decreasing_by
  · have hle : ∀ (n : Nat) (l : List Val), sizeOf (l.take n) ≤ sizeOf l := by
      intro n l
      induction l generalizing n with
      | nil => simp [List.take_nil]
      | cons x rest ih =>
          cases n with
          | zero =>
              simp only [List.take_zero, List.nil.sizeOf_spec,
                List.cons.sizeOf_spec]
              omega
          | succ m =>
              have := ih m
              simp only [List.take_succ_cons, List.cons.sizeOf_spec]
              omega
    have := hle MAX_LIST_ITEMS items
    simp only [Val.list.sizeOf_spec]
    omega
  · have hle : ∀ (n : Nat) (l : List (String × Val)),
        sizeOf (l.take n) ≤ sizeOf l := by
      intro n l
      induction l generalizing n with
      | nil => simp [List.take_nil]
      | cons x rest ih =>
          cases n with
          | zero =>
              simp only [List.take_zero, List.nil.sizeOf_spec,
                List.cons.sizeOf_spec]
              omega
          | succ m =>
              have := ih m
              simp only [List.take_succ_cons, List.cons.sizeOf_spec]
              omega
    have := hle MAX_DICT_ITEMS entries
    simp only [Val.dict.sizeOf_spec]
    omega

/-- The list comprehension in `sanitize_value`'s sequence branch:
`sanitize_value` applied to every element, hint inherited. -/
def sanitize_list (patterns : List String) (items : List Val)
    (field_name : String) : List Val :=
  match items with
  | [] => []
  | item :: rest =>
      sanitize_value_in patterns item field_name ::
        sanitize_list patterns rest field_name
termination_by sizeOf items
decreasing_by
  · simp only [List.cons.sizeOf_spec]
    omega
  · simp only [List.cons.sizeOf_spec]
    omega

/-- The loop body of `sanitize_dict` over the entries it keeps: each
value sanitized with its own key as the field-name hint. -/
def sanitize_entries (patterns : List String) (l : List (String × Val)) :
    List (String × Val) :=
  match l with
  | [] => []
  | kv :: rest =>
      (kv.1, sanitize_value_in patterns kv.2 kv.1) ::
        sanitize_entries patterns rest
termination_by sizeOf l
decreasing_by
  · have h3 : sizeOf kv.2 < sizeOf kv := by
      cases kv
      simp_all
    simp only [List.cons.sizeOf_spec]
    omega
  · simp only [List.cons.sizeOf_spec]
    omega

end

/-- `sanitize_dict(data, max_items)`, generalized over the current value
of the global sensitive-pattern set.  The `__truncated__` marker is
written with dict-assignment semantics. -/
def sanitize_dict_in (patterns : List String) (data : List (String × Val))
    (max_items : Nat) : List (String × Val) :=
  let kept := sanitize_entries patterns (data.take max_items)
  if data.length > max_items then
    dictInsert kept "__truncated__"
      (Val.str ("... [truncated, total: " ++ toString data.length ++ " keys]"))
  else kept

/-- `sanitize_value(value, field_name)` against the untouched global set. -/
def sanitize_value (value : Val) (field_name : String) : Val :=
  sanitize_value_in SENSITIVE_FIELD_PATTERNS value field_name

/-- `sanitize_dict(data, max_items)` against the untouched global set. -/
def sanitize_dict (data : List (String × Val)) (max_items : Nat) :
    List (String × Val) :=
  sanitize_dict_in SENSITIVE_FIELD_PATTERNS data max_items

/-! ### `json.dumps` model

`json.dumps` with its defaults: `ensure_ascii=True`, separators
`(', ', ': ')`.  `bytes` and arbitrary objects raise `TypeError`,
modelled as `Option.none`. -/

/-- Lowercase hex digit. -/
def hexDigit (n : Nat) : Char :=
  if n < 10 then Char.ofNat (48 + n) else Char.ofNat (87 + n)

/-- Four lowercase hex digits, as in `\uXXXX`. -/
def hex4 (n : Nat) : String :=
  String.mk [hexDigit (n / 4096 % 16), hexDigit (n / 256 % 16),
             hexDigit (n / 16 % 16), hexDigit (n % 16)]

/-- One character of a JSON string under `ensure_ascii=True`: printable
ASCII other than quote and backslash kept, C-escape shorthands, `\uXXXX`
for the rest, surrogate pairs above the BMP. -/
def jsonEscapeChar (c : Char) : String :=
  if c = '"' then "\\\""
  else if c = '\\' then "\\\\"
  else if c = '\n' then "\\n"
  else if c = '\t' then "\\t"
  else if c = '\r' then "\\r"
  else if c.toNat = 8 then "\\b"
  else if c.toNat = 12 then "\\f"
  else if 32 ≤ c.toNat ∧ c.toNat ≤ 126 then String.mk [c]
  else if c.toNat < 65536 then "\\u" ++ hex4 c.toNat
  else
    "\\u" ++ hex4 (55296 + (c.toNat - 65536) / 1024) ++
    "\\u" ++ hex4 (56320 + (c.toNat - 65536) % 1024)

/-- A JSON string literal. -/
def jsonQuote (s : String) : String :=
  "\"" ++ String.join (s.toList.map jsonEscapeChar) ++ "\""

mutual

/-- `json.dumps(v)`: `Option.none` when serialization raises
`TypeError`. -/
def json_dumps : Val → Option String
  | .none => some "null"
  | .bool b => some (if b then "true" else "false")
  | .int n => some (toString n)
  | .str s => some (jsonQuote s)
  | .bytes _ => Option.none
  | .other _ _ => Option.none
  | .list items =>
      (json_dumps_list items).map
        (fun parts => "[" ++ String.intercalate ", " parts ++ "]")
  | .dict entries =>
      (json_dumps_entries entries).map
        (fun parts => "\x7b" ++ String.intercalate ", " parts ++ "\x7d")
termination_by v => sizeOf v
decreasing_by
  · simp only [Val.list.sizeOf_spec]
    omega
  · simp only [Val.dict.sizeOf_spec]
    omega

/-- Serialization of the elements of a JSON array: fails as soon as one
element does. -/
def json_dumps_list : List Val → Option (List String)
  | [] => some []
  | v :: rest =>
      match json_dumps v, json_dumps_list rest with
      | some s, some parts => some (s :: parts)
      | _, _ => Option.none
termination_by l => sizeOf l
decreasing_by
  · simp only [List.cons.sizeOf_spec]
    omega
  · simp only [List.cons.sizeOf_spec]
    omega

/-- Serialization of the members of a JSON object with the default
`': '` key separator: fails as soon as one value does. -/
def json_dumps_entries : List (String × Val) → Option (List String)
  | [] => some []
  | kv :: rest =>
      match json_dumps kv.2, json_dumps_entries rest with
      | some s, some parts => some ((jsonQuote kv.1 ++ ": " ++ s) :: parts)
      | _, _ => Option.none
termination_by l => sizeOf l
decreasing_by
  · have h3 : sizeOf kv.2 < sizeOf kv := by
      cases kv
      simp_all
    simp only [List.cons.sizeOf_spec]
    omega
  · simp only [List.cons.sizeOf_spec]
    omega

end

/-! ### Python `str()` / `repr()` of sanitized values

Used only on `sanitize_payload`'s `TypeError` fallback branch, which is
unreachable for sanitizer output (`json_dumps_sanitize_value_isSome`
below); `repr` of a string is modelled with Python's quote choice and
the standard backslash escapes. -/

/-- `repr` of a `str`: single quotes, unless the string contains `'` and
no `"`; backslash, quote and common control characters escaped. -/
def pyReprStr (s : String) : String :=
  let quote : Char :=
    if s.toList.contains '\'' && !(s.toList.contains '"') then '"' else '\''
  let escape : Char → String := fun c =>
    if c = '\\' then "\\\\"
    else if c = quote then "\\" ++ String.mk [quote]
    else if c = '\n' then "\\n"
    else if c = '\r' then "\\r"
    else if c = '\t' then "\\t"
    else String.mk [c]
  String.mk [quote] ++ String.join (s.toList.map escape) ++ String.mk [quote]

mutual

/-- `repr(v)` for values the sanitizer produces. -/
def pyRepr : Val → String
  | .none => "None"
  | .bool b => if b then "True" else "False"
  | .int n => toString n
  | .str s => pyReprStr s
  | .bytes bs => "b" ++ pyReprStr (String.mk (bs.map Char.ofNat))
  | .other _ r => r
  | .list items =>
      "[" ++ String.intercalate ", " (pyReprList items) ++ "]"
  | .dict entries =>
      "\x7b" ++ String.intercalate ", " (pyReprEntries entries) ++ "\x7d"
termination_by v => sizeOf v
decreasing_by
  · simp only [Val.list.sizeOf_spec]
    omega
  · simp only [Val.dict.sizeOf_spec]
    omega

/-- `repr` of each element of a list. -/
def pyReprList : List Val → List String
  | [] => []
  | v :: rest => pyRepr v :: pyReprList rest
termination_by l => sizeOf l
decreasing_by
  · simp only [List.cons.sizeOf_spec]
    omega
  · simp only [List.cons.sizeOf_spec]
    omega

/-- `repr` of each `key: value` member of a dict. -/
def pyReprEntries : List (String × Val) → List String
  | [] => []
  | kv :: rest => (pyReprStr kv.1 ++ ": " ++ pyRepr kv.2) :: pyReprEntries rest
termination_by l => sizeOf l
decreasing_by
  · have h3 : sizeOf kv.2 < sizeOf kv := by
      cases kv
      simp_all
    simp only [List.cons.sizeOf_spec]
    omega
  · simp only [List.cons.sizeOf_spec]
    omega

end

/-- `str(v)`: the raw string for a `str`, `repr` otherwise. -/
def pyStr (v : Val) : String :=
  match v with
  | .str s => s
  | _ => pyRepr v

/-! ### `sanitize_payload`

The function temporarily mutates the module-global
`SENSITIVE_FIELD_PATTERNS` when `additional_redact_fields` is non-empty
and restores it in a `finally` block.  The global is modelled as
explicit state: `sanitize_payload_run` takes the global's value at call
time and also returns the value the global holds *while* the payload is
being sanitized and the value it holds after the `finally` block. -/

structure SanitizePayloadResult where
  result : Val
  /-- Value of the global `SENSITIVE_FIELD_PATTERNS` between the
  `update` call and the `finally` restore — what a concurrent reader of
  the global observes during this call. -/
  duringPatterns : List String
  /-- Value of the global once the `finally` block has run. -/
  afterPatterns : List String

/-- The structured sanitization step of `sanitize_payload`: dicts go
through `sanitize_dict`, everything else through
`sanitize_value(payload, '')`. -/
def sanitize_payload_sanitized (patterns : List String) (payload : Val) :
    Val :=
  match payload with
  | .dict entries => Val.dict (sanitize_dict_in patterns entries MAX_DICT_ITEMS)
  | .list items => sanitize_value_in patterns (Val.list items) ""
  | v => sanitize_value_in patterns v ""

/-- `sanitize_payload(payload, max_size, additional_redact_fields)` with
the global pattern set threaded explicitly.  `additional_redact_fields =
[]` models passing `None` (or an empty set, equally falsy). -/
def sanitize_payload_run (globalPatterns : List String) (payload : Val)
    (max_size : Nat) (additional_redact_fields : List String) :
    SanitizePayloadResult :=
  match payload with
  | .none =>
      { result := Val.dict [("payload", Val.none)],
        duringPatterns := globalPatterns, afterPatterns := globalPatterns }
  | payload =>
      -- Add any custom fields to redact (global mutate, restored below)
      let patterns :=
        if additional_redact_fields.isEmpty then globalPatterns
        else globalPatterns ++ additional_redact_fields.map pyLower
      let sanitized := sanitize_payload_sanitized patterns payload
      -- Check final size
      let result :=
        match json_dumps sanitized with
        | some json_str =>
            if json_str.length > max_size then
              Val.dict [("payload", Val.str "[TRUNCATED: payload too large]"),
                        ("size", Val.int (json_str.length : Int)),
                        ("max_size", Val.int (max_size : Int))]
            else sanitized
        | none =>
            -- If can't serialize, return string representation
            Val.dict [("payload", Val.str ((pyStr sanitized).take max_size))]
      -- finally: restore original patterns if we modified them
      { result := result, duringPatterns := patterns,
        afterPatterns := globalPatterns }

/-- `sanitize_payload` as called against the untouched module global. -/
def sanitize_payload (payload : Val) (max_size : Nat)
    (additional_redact_fields : List String) : Val :=
  (sanitize_payload_run SENSITIVE_FIELD_PATTERNS payload max_size
    additional_redact_fields).result

/-! ## Setup (`turnus_logging/config.py`)

The two effects of `setup_logging` under verification: resolution of the
service name plus the context mutation that installs the `service` key,
and handler (sink) registration on the Python `logging` root and named
loggers.  Config-file/environment loading is an external collaborator;
the value it would supply for `service_name` enters as a parameter. -/

/-- Python `x or y` on an optional string, with `""` falsy. -/
def pyOrStr (a : Option String) (b : String) : String :=
  match a with
  | some s => if s = "" then b else s
  | none => b

/-- The effective `service_name` in `setup_logging`: the config file is
consulted (`config.get('service_name', 'turnus_ai')`, modelled by
`config_service_name` with its `'turnus_ai'` default) only when at
least one of `service_name`, `log_level`, `sentry` was not supplied;
then `service_name = service_name or 'turnus_ai'`. -/
def resolve_service_name (service_name : Option String)
    (log_level_given sentry_given : Bool)
    (config_service_name : Option String) : String :=
  let sn : Option String :=
    if service_name = Option.none ∨ log_level_given = false ∨ sentry_given = false then
      some (pyOrStr service_name (config_service_name.getD "turnus_ai"))
    else service_name
  pyOrStr sn "turnus_ai"

/-- The context mutation in `setup_logging`: read the current context
(`get_context() or {}`), set `current_context['service']`, store it
back with `set_context`. -/
def setup_logging_context (service_name : String) (st : Ctx String) :
    Ctx String :=
  let current_context := (get_context st).getD []
  set_context (some (dictInsert current_context "service" service_name)) st

/-- A `logging.Handler` as registered by `setup_logging`: its object
identity (fresh per `StreamHandler(...)` construction) and its level. -/
structure Handler where
  hid : Nat
  level : Nat

/-- The part of the Python `logging` module state that `setup_logging`
touches: the root logger and the named loggers created so far.  A named
logger never asked for is absent from `namedLoggers`. -/
structure LoggingState where
  rootLevel : Nat
  rootHandlers : List Handler
  namedLoggers : List (String × (Nat × List Handler))

/-- Handler registration in `setup_logging` (config.py lines 61-83): set
the root and named loggers' levels, clear both handler lists
(idempotent setup), then add a fresh console handler to the root logger
when `enable_console`.  `consoleId` is the identity of the newly built
`StreamHandler`. -/
def setup_logging_handlers (st : LoggingState) (service_name : String)
    (log_level : Nat) (enable_console : Bool) (consoleId : Nat) :
    LoggingState :=
  { rootLevel := log_level
    rootHandlers :=
      if enable_console then [{ hid := consoleId, level := log_level }] else []
    namedLoggers := dictInsert st.namedLoggers service_name (log_level, []) }

/-- Delivery of one record logged through a named logger: Python
`logging` hands a record that passes the logger's effective level to the
handlers of that logger and (by propagation) of the root, each filtered
by its own handler level.  Returns the identities of the handlers that
receive the record, in order. -/
def emit_deliveries (st : LoggingState) (logger_name : String)
    (levelno : Nat) : List Nat :=
  let eff :=
    match dictGet st.namedLoggers logger_name with
    | some lh => lh
    | none => (st.rootLevel, [])
  if levelno ≥ eff.1 then
    ((eff.2 ++ st.rootHandlers).filter (fun h => levelno ≥ h.level)).map
      (fun h => h.hid)
  else []

/-! ## Formatter (`turnus_logging/formatters.py`) -/

/-- The fixed `logging.LogRecord` fields the default format reads. -/
structure LogRecord where
  asctime : String
  name : String
  levelname : String
  message : String

/-- The `record.context_str` built by `ContextFormatter.format`: one
`key=value` part per entry of the current context, in order; no parts
when the context is falsy (`None` or `{}`). -/
def contextDisplay (context : Ctx String) : String :=
  let context_parts :=
    match context with
    | some items =>
        if items.isEmpty then [] else items.map (fun kv => kv.1 ++ "=" ++ kv.2)
    | none => []
  if context_parts.isEmpty then "[-]"
  else "[" ++ String.intercalate ", " context_parts ++ "]"

/-- `get_default_format()`. -/
def get_default_format : String :=
  "%(asctime)s - %(name)s - %(levelname)s - %(context_str)s - %(message)s"

/-- Instantiation of the default `%`-style template on an enriched
record: dashes between timestamp, logger name, level name, context
display string and message. -/
def format_with_default (r : LogRecord) (ctx_display : String) : String :=
  r.asctime ++ " - " ++ r.name ++ " - " ++ r.levelname ++ " - " ++
    ctx_display ++ " - " ++ r.message

/-- `ContextFormatter.format(record)` under the default console format:
read the current context, derive `context_str`, render the line. -/
def ContextFormatter_format (r : LogRecord) (st : Ctx String) : String :=
  format_with_default r (contextDisplay (get_context st))

/-! ## Theorems -/

theorem dictGet_nil {V : Type} (k : String) :
    dictGet ([] : List (String × V)) k = none := rfl

theorem dictGet_cons {V : Type} (kv : String × V) (rest : List (String × V))
    (k' : String) :
    dictGet (kv :: rest) k' = if kv.1 = k' then some kv.2 else dictGet rest k' := by
  by_cases h : kv.1 = k'
  · rw [dictGet, List.find?_cons_of_pos _ (by simpa using h), if_pos h]
    rfl
  · rw [dictGet, List.find?_cons_of_neg _ (by simpa using h), if_neg h]
    rfl

theorem dictGet_eq_none_of_not_mem {V : Type} (d : List (String × V))
    (k : String) (h : k ∉ d.map Prod.fst) : dictGet d k = none := by
  induction d with
  | nil => rfl
  | cons kv rest ih =>
      simp only [List.map_cons, List.mem_cons, not_or] at h
      rw [dictGet_cons, if_neg (fun hc => h.1 hc.symm)]
      exact ih h.2

theorem dictGet_dictInsert {V : Type} (d : List (String × V)) (k : String)
    (v : V) (k' : String) :
    dictGet (dictInsert d k v) k' = if k' = k then some v else dictGet d k' := by
  induction d with
  | nil =>
      simp only [dictInsert, dictGet_cons, dictGet_nil]
      by_cases h : k = k'
      · rw [if_pos h, if_pos h.symm]
      · rw [if_neg h, if_neg (fun hc : k' = k => h hc.symm)]
  | cons kv rest ih =>
      simp only [dictInsert]
      by_cases hk : kv.1 = k
      · rw [if_pos hk]
        simp only [dictGet_cons]
        by_cases h : k = k'
        · rw [if_pos h, if_pos h.symm]
        · rw [if_neg h, if_neg (fun hc : k' = k => h hc.symm),
            if_neg (fun hc : kv.1 = k' => h (hk.symm.trans hc))]
      · rw [if_neg hk]
        simp only [dictGet_cons, ih]
        by_cases hkv : kv.1 = k'
        · rw [if_pos hkv, if_neg (fun hc : k' = k => hk (hkv.trans hc)),
            if_pos hkv]
        · simp only [if_neg hkv]

theorem dictGet_dictUpdate {V : Type} (a b : List (String × V)) (k : String)
    (hb : (b.map Prod.fst).Nodup) :
    dictGet (dictUpdate a b) k =
      match dictGet b k with
      | some v => some v
      | none => dictGet a k := by
  induction b generalizing a with
  | nil => simp [dictUpdate, dictGet_nil]
  | cons kv rest ih =>
      simp only [List.map_cons, List.nodup_cons] at hb
      have hrest := ih (dictInsert a kv.1 kv.2) hb.2
      simp only [dictUpdate, List.foldl_cons] at hrest ⊢
      rw [hrest, dictGet_cons, dictGet_dictInsert]
      by_cases h : kv.1 = k
      · have hnone : dictGet rest k = none :=
          dictGet_eq_none_of_not_mem rest k (h ▸ hb.1)
        rw [hnone, if_pos h, if_pos (h.symm)]
      · rw [if_neg h, if_neg (fun hc : k = kv.1 => h hc.symm)]

/-- C1: for every sequence of nested scope entries via `log_context`,
exiting the innermost scope restores as current exactly the snapshot
that was current immediately before that scope was entered — the parent,
not empty — on every exit path: the body is an arbitrary state
transformer, so both normal return (`Except.ok`) and a raised exception
(`Except.error`) are covered, and the scope's outcome is exactly the
body's outcome on the merged parent-plus-overrides snapshot. -/
theorem log_context_restores_parent {V E A : Type}
    (kwargs : List (String × V)) (st : Ctx V)
    (body : Ctx V → Except E A × Ctx V) :
    (log_context_run kwargs st body).2 = st ∧
    (log_context_run kwargs st body).1 = (body (log_context_enter kwargs st)).1 := by
  exact ⟨rfl, rfl⟩

/-- C6: `append_context(overrides)` reads the current snapshot (or empty
when none is set) and installs `current ∪ overrides`: the override value
wins for every colliding key, and every other key keeps its prior
value. -/
theorem append_context_merges {V : Type} (overrides : List (String × V))
    (st : Ctx V) (hnodup : (overrides.map Prod.fst).Nodup) :
    ∃ merged, append_context overrides st = some merged ∧
      ∀ k, dictGet merged k =
        (dictGet overrides k).orElse
          (fun _ => dictGet ((get_context st).getD []) k) := by
  cases st with
  | none =>
      refine ⟨overrides, rfl, fun k => ?_⟩
      cases h : dictGet overrides k with
      | none => simp [h, get_context, dictGet_nil, Option.orElse]
      | some v => simp [h, Option.orElse]
  | some current =>
      refine ⟨dictUpdate current overrides, rfl, fun k => ?_⟩
      rw [dictGet_dictUpdate current overrides k hnodup]
      cases h : dictGet overrides k with
      | none => simp [h, Option.orElse, get_context]
      | some v => simp [h, Option.orElse]

/-- Witness for C6 at a concrete context and override set. -/
theorem append_context_merges_witness :
    ([("b", "3"), ("c", "4")].map Prod.fst).Nodup ∧
    ∃ merged,
      append_context [("b", "3"), ("c", "4")]
        (some [("a", "1"), ("b", "2")]) = some merged ∧
      ∀ k, dictGet merged k =
        (dictGet [("b", "3"), ("c", "4")] k).orElse
          (fun _ =>
            dictGet ((get_context (some [("a", "1"), ("b", "2")])).getD []) k) :=
  ⟨by decide, append_context_merges [("b", "3"), ("c", "4")]
    (some [("a", "1"), ("b", "2")]) (by decide)⟩

/-! ### Evaluation lemmas for the sanitizer -/

theorem sanitize_value_in_redacts (P : List String) (v : Val) (f : String)
    (hne : f ≠ "") (hs : is_sensitive_field_in P f = true) :
    sanitize_value_in P v f = Val.str "[REDACTED]" := by
  rw [sanitize_value_in.eq_def]
  simp [hs, hne]

theorem sanitize_value_in_none (P : List String) (f : String)
    (hs : is_sensitive_field_in P f = false) (hf : is_file_field f = false) :
    sanitize_value_in P Val.none f = Val.none := by
  rw [sanitize_value_in.eq_def]
  simp [hs, hf]

theorem sanitize_value_in_bool (P : List String) (b : Bool) (f : String)
    (hs : is_sensitive_field_in P f = false) (hf : is_file_field f = false) :
    sanitize_value_in P (Val.bool b) f = Val.bool b := by
  rw [sanitize_value_in.eq_def]
  simp [hs, hf]

theorem sanitize_value_in_int (P : List String) (n : Int) (f : String)
    (hs : is_sensitive_field_in P f = false) (hf : is_file_field f = false) :
    sanitize_value_in P (Val.int n) f = Val.int n := by
  rw [sanitize_value_in.eq_def]
  simp [hs, hf]

theorem sanitize_value_in_str (P : List String) (s : String) (f : String)
    (hs : is_sensitive_field_in P f = false) (hf : is_file_field f = false) :
    sanitize_value_in P (Val.str s) f =
      if s.length > MAX_STRING_LENGTH then
        Val.str (s.take MAX_STRING_LENGTH ++
          "... [truncated, total: " ++ toString s.length ++ " chars]")
      else Val.str s := by
  rw [sanitize_value_in.eq_def]
  simp [hs, hf]

theorem sanitize_value_in_other (P : List String) (tn r : String) (f : String)
    (hs : is_sensitive_field_in P f = false) (hf : is_file_field f = false) :
    sanitize_value_in P (Val.other tn r) f =
      if r.length > MAX_STRING_LENGTH then
        Val.str ("[" ++ tn ++ ": " ++ r.take 100 ++ "... truncated]")
      else Val.str r := by
  rw [sanitize_value_in.eq_def]
  simp [hs, hf]

theorem sanitize_value_in_dict_top (P : List String)
    (entries : List (String × Val)) :
    sanitize_value_in P (Val.dict entries) "" =
      Val.dict (sanitize_dict_in P entries MAX_DICT_ITEMS) := by
  have h1 : ¬ ((("" != "") && is_sensitive_field_in P "") = true) := by
    rw [show ("" != "") = false from rfl, Bool.false_and]
    decide
  have h2 : ¬ ((("" != "") && is_file_field "") = true) := by
    rw [show ("" != "") = false from rfl, Bool.false_and]
    decide
  rw [sanitize_value_in.eq_def, if_neg h1, if_neg h2]
  rfl

theorem sanitize_entries_eq_map (P : List String)
    (l : List (String × Val)) :
    sanitize_entries P l =
      l.map (fun kv => (kv.1, sanitize_value_in P kv.2 kv.1)) := by
  induction l with
  | nil => rw [sanitize_entries.eq_def]; rfl
  | cons kv rest ih =>
      rw [sanitize_entries.eq_def]
      simp only [List.map_cons]
      rw [ih]

theorem sanitize_list_eq_map (P : List String) (items : List Val)
    (f : String) :
    sanitize_list P items f =
      items.map (fun v => sanitize_value_in P v f) := by
  induction items with
  | nil => rw [sanitize_list.eq_def]; rfl
  | cons v rest ih =>
      rw [sanitize_list.eq_def]
      simp only [List.map_cons]
      rw [ih]

theorem sanitize_dict_in_eq_map (P : List String)
    (data : List (String × Val)) (max_items : Nat)
    (h : data.length ≤ max_items) :
    sanitize_dict_in P data max_items =
      data.map (fun kv => (kv.1, sanitize_value_in P kv.2 kv.1)) := by
  rw [sanitize_dict_in.eq_def, List.take_of_length_le h, if_neg (by omega)]
  exact sanitize_entries_eq_map P data

theorem dictGet_sanitize_entries (P : List String)
    (l : List (String × Val)) (k : String) :
    dictGet (sanitize_entries P l) k =
      (dictGet l k).map (fun v => sanitize_value_in P v k) := by
  induction l with
  | nil => rw [sanitize_entries.eq_def]; rfl
  | cons kv rest ih =>
      rw [sanitize_entries.eq_def]
      simp only [dictGet_cons]
      by_cases h : kv.1 = k
      · subst h
        simp
      · simp [h, ih]

theorem sanitize_dict_in_le (P : List String) (entries : List (String × Val))
    (h : entries.length ≤ MAX_DICT_ITEMS) :
    sanitize_dict_in P entries MAX_DICT_ITEMS = sanitize_entries P entries := by
  rw [sanitize_dict_in, List.take_of_length_le h]
  simp only [if_neg (by omega : ¬ entries.length > MAX_DICT_ITEMS)]

/-- C3: `sanitize` on a mapping holding `"password" ↦ "hunter2"` yields
the redaction marker at that key and leaves every sibling whose key is
not sensitive or file-like and whose value is a scalar or an in-limit
string unchanged; moreover a sensitive field-name hint forces the
redaction marker regardless of the value's shape, and sensitivity is
case-insensitive substring matching against the pattern set. -/
theorem sanitize_redacts_password_mapping :
    (∀ (entries : List (String × Val)), entries.length ≤ MAX_DICT_ITEMS →
      ∃ out, sanitize_value (Val.dict entries) "" = Val.dict out ∧
        (dictGet entries "password" = some (Val.str "hunter2") →
          dictGet out "password" = some (Val.str "[REDACTED]")) ∧
        (∀ k v, dictGet entries k = some v →
          is_sensitive_field k = false → is_file_field k = false →
          (v = Val.none ∨ (∃ b, v = Val.bool b) ∨ (∃ n, v = Val.int n) ∨
            (∃ s, v = Val.str s ∧ s.length ≤ MAX_STRING_LENGTH)) →
          dictGet out k = some v)) ∧
    (∀ (v : Val) (f : String), f ≠ "" → is_sensitive_field f = true →
      sanitize_value v f = Val.str "[REDACTED]") ∧
    (∀ f : String, is_sensitive_field f = true ↔
      ∃ p ∈ SENSITIVE_FIELD_PATTERNS, p.toList <:+: (pyLower f).toList) := by
  refine ⟨?_, ?_, ?_⟩
  · intro entries hlen
    refine ⟨sanitize_entries SENSITIVE_FIELD_PATTERNS entries, ?_, ?_, ?_⟩
    · rw [sanitize_value, sanitize_value_in_dict_top,
        sanitize_dict_in_le _ _ hlen]
    · intro hpw
      rw [dictGet_sanitize_entries, hpw, Option.map_some']
      rw [sanitize_value_in_redacts _ _ _ (by decide) (by decide)]
    · intro k v hget hs hf hshape
      rw [dictGet_sanitize_entries, hget, Option.map_some']
      rcases hshape with h | ⟨b, h⟩ | ⟨n, h⟩ | ⟨s, h, hslen⟩
      · rw [h, sanitize_value_in_none _ _ hs hf]
      · rw [h, sanitize_value_in_bool _ _ _ hs hf]
      · rw [h, sanitize_value_in_int _ _ _ hs hf]
      · rw [h, sanitize_value_in_str _ _ _ hs hf,
          if_neg (by omega : ¬ s.length > MAX_STRING_LENGTH)]
  · intro v f hne hs
    exact sanitize_value_in_redacts _ _ _ hne hs
  · intro f
    constructor
    · intro h
      rcases List.any_eq_true.mp h with ⟨p, hp, hc⟩
      exact ⟨p, hp, of_decide_eq_true hc⟩
    · rintro ⟨p, hp, hc⟩
      exact List.any_eq_true.mpr ⟨p, hp, decide_eq_true hc⟩

/-- Witness for C3 on a concrete mapping with one sensitive and one
plain sibling key. -/
theorem sanitize_redacts_password_mapping_witness :
    ([("password", Val.str "hunter2"), ("user", Val.str "bob")].length
        ≤ MAX_DICT_ITEMS) ∧
    ∃ out,
      sanitize_value
        (Val.dict [("password", Val.str "hunter2"), ("user", Val.str "bob")])
        "" = Val.dict out ∧
      dictGet out "password" = some (Val.str "[REDACTED]") ∧
      dictGet out "user" = some (Val.str "bob") := by
  refine ⟨by decide, ?_⟩
  obtain ⟨out, hout, hpw, hsib⟩ :=
    (sanitize_redacts_password_mapping.1
      [("password", Val.str "hunter2"), ("user", Val.str "bob")] (by decide))
  exact ⟨out, hout, hpw rfl,
    hsib "user" (Val.str "bob") rfl (by decide) (by decide)
      (Or.inr (Or.inr (Or.inr ⟨"bob", rfl, by decide⟩)))⟩

/-- C5: a non-sensitive, non-file-hinted string of length 2000 under the
`MAX_STRING_LENGTH = 1000` limit is truncated to its first 1000
characters with a marker stating the original length 2000. -/
theorem sanitize_truncates_long_strings (s : String) (f : String)
    (hlen : s.length = 2000)
    (hs : is_sensitive_field f = false) (hf : is_file_field f = false) :
    sanitize_value (Val.str s) f =
      Val.str (s.take 1000 ++ "... [truncated, total: 2000 chars]") := by
  rw [sanitize_value, sanitize_value_in_str _ _ _ hs hf,
    if_pos (by rw [hlen]; decide), hlen]
  rw [String.append_assoc, String.append_assoc]
  show Val.str (s.take MAX_STRING_LENGTH ++ _) = Val.str (s.take 1000 ++ _)
  congr 1

/-- Witness for C5 on a concrete 2000-character string. -/
theorem sanitize_truncates_long_strings_witness :
    (String.mk (List.replicate 2000 'x')).length = 2000 ∧
    is_sensitive_field "note" = false ∧ is_file_field "note" = false ∧
    sanitize_value (Val.str (String.mk (List.replicate 2000 'x'))) "note" =
      Val.str ((String.mk (List.replicate 2000 'x')).take 1000 ++
        "... [truncated, total: 2000 chars]") := by
  have hlen : (String.mk (List.replicate 2000 'x')).length = 2000 := by
    show (List.replicate 2000 'x').length = 2000
    rw [List.length_replicate]
  refine ⟨hlen, by decide, by decide, ?_⟩
  exact sanitize_truncates_long_strings _ "note" hlen (by decide) (by decide)

/-- C7 counterexample: for an arbitrary-shape value whose string
representation fits within the limit, `sanitize` returns the plain
representation with no tag naming the value's shape — here the shape
name `"object"` does not occur in the output at all. -/
theorem sanitize_other_short_untagged :
    sanitize_value (Val.other "object" "hello") "" = Val.str "hello" ∧
    strContains "hello" "object" = false := by
  constructor
  · rw [sanitize_value,
      sanitize_value_in_other _ _ _ _ (by decide) (by decide),
      if_neg (by decide)]
  · decide

/-- C7 (amended): `sanitize` is total — every input of any shape yields
a value — and an other-shape value (not caught by a sensitive or
file-like hint) degrades to its string representation: tagged with the
shape's name and truncated to 100 characters when the representation
exceeds the max string length, otherwise the plain in-limit
representation. -/
theorem sanitize_other_fallback (tn r f : String)
    (hs : is_sensitive_field f = false) (hf : is_file_field f = false) :
    sanitize_value (Val.other tn r) f =
      Val.str (if r.length > MAX_STRING_LENGTH
        then "[" ++ tn ++ ": " ++ r.take 100 ++ "... truncated]" else r) ∧
    ∀ (v : Val) (g : String), ∃ w, sanitize_value v g = w := by
  constructor
  · rw [sanitize_value, sanitize_value_in_other _ _ _ _ hs hf]
    by_cases h : r.length > MAX_STRING_LENGTH
    · simp only [if_pos h]
    · simp only [if_neg h]
  · exact fun v g => ⟨_, rfl⟩

/-- Witness for the amended C7 at a concrete other-shape value. -/
theorem sanitize_other_fallback_witness :
    is_sensitive_field "meta" = false ∧ is_file_field "meta" = false ∧
    (sanitize_value (Val.other "Decimal" "3.5") "meta" =
      Val.str (if ("3.5" : String).length > MAX_STRING_LENGTH
        then "[" ++ "Decimal" ++ ": " ++ ("3.5" : String).take 100 ++
          "... truncated]" else "3.5") ∧
      ∀ (v : Val) (g : String), ∃ w, sanitize_value v g = w) :=
  ⟨by decide, by decide,
    sanitize_other_fallback "Decimal" "3.5" "meta" (by decide) (by decide)⟩

/-- C2: with `additional_redact_fields` the code mutates the shared
module-global `SENSITIVE_FIELD_PATTERNS` for the duration of the call
and restores it in a `finally` block, rather than passing the extended
rule set as a parameter: while the call is sanitizing, the global
differs observably from its original value — a field name that the
untouched global does not classify as sensitive is classified as
sensitive by the global a concurrent reader sees mid-call. -/
theorem sanitize_payload_mutates_global :
    (sanitize_payload_run SENSITIVE_FIELD_PATTERNS
        (Val.dict [("customfield", Val.str "v")]) MAX_TOTAL_SIZE
        ["customfield"]).duringPatterns =
      SENSITIVE_FIELD_PATTERNS ++ ["customfield"] ∧
    is_sensitive_field_in (SENSITIVE_FIELD_PATTERNS ++ ["customfield"])
      "customfield" = true ∧
    is_sensitive_field "customfield" = false ∧
    (sanitize_payload_run SENSITIVE_FIELD_PATTERNS
        (Val.dict [("customfield", Val.str "v")]) MAX_TOTAL_SIZE
        ["customfield"]).afterPatterns = SENSITIVE_FIELD_PATTERNS :=
  ⟨rfl, by decide, by decide, rfl⟩

/-- C4 counterexample: a `None` payload is returned as the structured
object `{'payload': None}` before the size gate runs, so with
`max_size = 0` the serialized form of what is returned (17 characters)
exceeds the limit yet no size-report marker is produced. -/
theorem sanitize_payload_none_skips_gate :
    sanitize_payload Val.none 0 [] = Val.dict [("payload", Val.none)] ∧
    json_dumps (Val.dict [("payload", Val.none)]) =
      some "\x7b\"payload\": null\x7d" ∧
    ("\x7b\"payload\": null\x7d").length > 0 ∧
    sanitize_payload Val.none 0 [] ≠
      Val.dict [("payload", Val.str "[TRUNCATED: payload too large]"),
                ("size", Val.int 17), ("max_size", Val.int 0)] := by
  refine ⟨rfl, ?_, by decide, ?_⟩
  · simp only [json_dumps, json_dumps_entries]
    rfl
  · intro h
    rw [show sanitize_payload Val.none 0 [] =
      Val.dict [("payload", Val.none)] from rfl] at h
    simp at h

/-- C4 (amended): for every payload other than `None`, if the JSON
serialization of the sanitized structured result exceeds `max_size`,
`sanitize_payload` discards the structured result and returns only the
marker object reporting the oversized length and the limit. -/
theorem sanitize_payload_size_gate (payload : Val) (max_size : Nat)
    (js : String) (hnp : payload ≠ Val.none)
    (hjs : json_dumps
      (sanitize_payload_sanitized SENSITIVE_FIELD_PATTERNS payload) = some js)
    (hbig : js.length > max_size) :
    sanitize_payload payload max_size [] =
      Val.dict [("payload", Val.str "[TRUNCATED: payload too large]"),
                ("size", Val.int (js.length : Int)),
                ("max_size", Val.int (max_size : Int))] := by
  cases payload with
  | none => exact absurd rfl hnp
  | bool b =>
      simp only [sanitize_payload, sanitize_payload_run, List.isEmpty_nil,
        if_true, hjs, if_pos hbig]
  | int n =>
      simp only [sanitize_payload, sanitize_payload_run, List.isEmpty_nil,
        if_true, hjs, if_pos hbig]
  | str s =>
      simp only [sanitize_payload, sanitize_payload_run, List.isEmpty_nil,
        if_true, hjs, if_pos hbig]
  | bytes bs =>
      simp only [sanitize_payload, sanitize_payload_run, List.isEmpty_nil,
        if_true, hjs, if_pos hbig]
  | list items =>
      simp only [sanitize_payload, sanitize_payload_run, List.isEmpty_nil,
        if_true, hjs, if_pos hbig]
  | dict entries =>
      simp only [sanitize_payload, sanitize_payload_run, List.isEmpty_nil,
        if_true, hjs, if_pos hbig]
  | other tn r =>
      simp only [sanitize_payload, sanitize_payload_run, List.isEmpty_nil,
        if_true, hjs, if_pos hbig]

/-- Witness for the amended C4: a 12-digit integer payload whose JSON
form exceeds a `max_size` of 10. -/
theorem sanitize_payload_size_gate_witness :
    (Val.int 123456789012 ≠ Val.none) ∧
    json_dumps
      (sanitize_payload_sanitized SENSITIVE_FIELD_PATTERNS
        (Val.int 123456789012)) = some "123456789012" ∧
    ("123456789012" : String).length > 10 ∧
    sanitize_payload (Val.int 123456789012) 10 [] =
      Val.dict [("payload", Val.str "[TRUNCATED: payload too large]"),
                ("size", Val.int (("123456789012" : String).length : Int)),
                ("max_size", Val.int ((10 : Nat) : Int))] := by
  have h1 : Val.int 123456789012 ≠ Val.none := by
    intro h
    exact Val.noConfusion h
  have h2 : json_dumps
      (sanitize_payload_sanitized SENSITIVE_FIELD_PATTERNS
        (Val.int 123456789012)) = some "123456789012" := by
    rw [show sanitize_payload_sanitized SENSITIVE_FIELD_PATTERNS
        (Val.int 123456789012) =
      sanitize_value_in SENSITIVE_FIELD_PATTERNS (Val.int 123456789012) ""
      from rfl]
    rw [sanitize_value_in_int _ _ _ (by decide) (by decide)]
    simp only [json_dumps]
    rfl
  have h3 : ("123456789012" : String).length > 10 := by decide
  exact ⟨h1, h2, h3,
    sanitize_payload_size_gate (Val.int 123456789012) 10 "123456789012"
      h1 h2 h3⟩

theorem dictInsert_ne_nil {V : Type} (d : List (String × V)) (k : String)
    (v : V) : dictInsert d k v ≠ [] := by
  cases d with
  | nil => simp [dictInsert]
  | cons kv rest =>
      simp only [dictInsert]
      by_cases h : kv.1 = k
      · simp [h]
      · simp [h]

/-- C8: re-running `setup_logging` fully discards the handlers the
first run registered before installing its own: after two setups, an
event emitted at or above the second configuration's level through the
second configuration's logger is delivered exactly once to the second
configuration's console handler (and to nothing else when the console
is disabled), and never to the handler created by the first setup. -/
theorem setup_logging_idempotent_sinks (st0 : LoggingState)
    (n1 n2 : String) (l1 l2 : Nat) (e1 e2 : Bool) (id1 id2 : Nat)
    (levelno : Nat) (hid : id1 ≠ id2) (hlev : levelno ≥ l2) :
    emit_deliveries
        (setup_logging_handlers
          (setup_logging_handlers st0 n1 l1 e1 id1) n2 l2 e2 id2)
        n2 levelno = (if e2 then [id2] else []) ∧
    id1 ∉ emit_deliveries
        (setup_logging_handlers
          (setup_logging_handlers st0 n1 l1 e1 id1) n2 l2 e2 id2)
        n2 levelno := by
  have hnamed : dictGet
      (setup_logging_handlers
        (setup_logging_handlers st0 n1 l1 e1 id1) n2 l2 e2 id2).namedLoggers
      n2 = some (l2, []) := by
    simp only [setup_logging_handlers]
    rw [dictGet_dictInsert, if_pos rfl]
  have hmain : emit_deliveries
      (setup_logging_handlers
        (setup_logging_handlers st0 n1 l1 e1 id1) n2 l2 e2 id2)
      n2 levelno = (if e2 then [id2] else []) := by
    rw [emit_deliveries, hnamed]
    simp only [setup_logging_handlers]
    rw [if_pos hlev]
    cases e2 with
    | true => simp [List.filter, hlev]
    | false => simp
  refine ⟨hmain, ?_⟩
  rw [hmain]
  cases e2 with
  | true => simpa using hid
  | false => simp

/-- Witness for C8 with two concrete configurations. -/
theorem setup_logging_idempotent_sinks_witness :
    (3 : Nat) ≠ 7 ∧ (20 : Nat) ≥ 10 ∧
    (emit_deliveries
        (setup_logging_handlers
          (setup_logging_handlers
            ⟨0, [], []⟩ "svc1" 20 true 3) "svc2" 10 true 7)
        "svc2" 20 = (if true then [7] else []) ∧
      3 ∉ emit_deliveries
        (setup_logging_handlers
          (setup_logging_handlers
            ⟨0, [], []⟩ "svc1" 20 true 3) "svc2" 10 true 7)
        "svc2" 20) :=
  ⟨by decide, by decide,
    setup_logging_idempotent_sinks ⟨0, [], []⟩ "svc1" "svc2" 20 10
      true true 3 7 20 (by decide) (by decide)⟩

/-- C9: the enricher derives the display string `[k1=v1, k2=v2]` listing
every key=value pair of the current snapshot in order — `[-]` when the
snapshot is `None` or empty — and the default console line renders as
`timestamp - serviceName - LEVEL - contextString - message`. -/
theorem ContextFormatter_renders_default_line (r : LogRecord)
    (k1 v1 k2 v2 : String) :
    ContextFormatter_format r (some [(k1, v1), (k2, v2)]) =
      r.asctime ++ " - " ++ r.name ++ " - " ++ r.levelname ++ " - " ++
        ("[" ++ (k1 ++ "=" ++ v1) ++ ", " ++ (k2 ++ "=" ++ v2) ++ "]") ++
        " - " ++ r.message ∧
    ContextFormatter_format r Option.none =
      r.asctime ++ " - " ++ r.name ++ " - " ++ r.levelname ++ " - " ++
        "[-]" ++ " - " ++ r.message ∧
    ContextFormatter_format r (some []) =
      r.asctime ++ " - " ++ r.name ++ " - " ++ r.levelname ++ " - " ++
        "[-]" ++ " - " ++ r.message ∧
    ∀ (items : List (String × String)), items ≠ [] →
      contextDisplay (some items) =
        "[" ++ String.intercalate ", "
          (items.map (fun kv => kv.1 ++ "=" ++ kv.2)) ++ "]" := by
  refine ⟨?_, rfl, rfl, ?_⟩
  · simp [ContextFormatter_format, format_with_default, contextDisplay,
      get_context, String.intercalate, String.intercalate.go,
      String.append_assoc]
  · intro items hne
    simp only [contextDisplay]
    rw [if_neg (by simp [hne]), if_neg (by simp [List.isEmpty_iff, hne])]

/-- Witness for C9's in-order pair listing at a concrete two-entry
snapshot. -/
theorem ContextFormatter_renders_default_line_witness :
    ([("request_id", "r1"), ("step", "pay")] ≠
      ([] : List (String × String))) ∧
    contextDisplay (some [("request_id", "r1"), ("step", "pay")]) =
      "[" ++ String.intercalate ", "
        ([("request_id", "r1"), ("step", "pay")].map
          (fun kv => kv.1 ++ "=" ++ kv.2)) ++ "]" :=
  ⟨by decide,
    (ContextFormatter_renders_default_line ⟨"t", "n", "l", "m"⟩
      "a" "b" "c" "d").2.2.2
      [("request_id", "r1"), ("step", "pay")] (by decide)⟩

/-- C10 counterexample: when the context already holds a `service` key,
`setup_logging` overwrites it, so that key does not keep its prior
value. -/
theorem setup_logging_context_overwrites_service :
    setup_logging_context "new" (some [("service", "old")]) =
      some [("service", "new")] ∧
    dictGet [("service", "new")] "service" ≠ some "old" := by
  constructor
  · rfl
  · decide

/-- C10 (amended): after `setup_logging`'s context mutation the current
snapshot holds `service` mapped to the resolved service name, every
prior key **other than `service`** keeps its prior value, the snapshot
is never empty, and the resolved name defaults to `turnus_ai` when
neither caller nor config supplies one. -/
theorem setup_logging_context_sets_service (service_name : String)
    (st : Ctx String) :
    (∃ c, setup_logging_context service_name st = some c ∧
      dictGet c "service" = some service_name ∧
      (∀ k, k ≠ "service" →
        dictGet c k = dictGet ((get_context st).getD []) k) ∧
      c ≠ []) ∧
    (∀ lg sg, resolve_service_name Option.none lg sg Option.none =
      "turnus_ai") := by
  constructor
  · refine ⟨dictInsert ((get_context st).getD []) "service" service_name,
      rfl, ?_, ?_, dictInsert_ne_nil _ _ _⟩
    · rw [dictGet_dictInsert, if_pos rfl]
    · intro k hk
      rw [dictGet_dictInsert, if_neg hk]
  · intro lg sg
    simp [resolve_service_name, pyOrStr]

/-- Witness for the amended C10 at a concrete prior context. -/
theorem setup_logging_context_sets_service_witness :
    ∃ c, setup_logging_context "svc" (some [("request_id", "r1")]) =
        some c ∧
      dictGet c "service" = some "svc" ∧
      dictGet c "request_id" =
        dictGet ((get_context
          (some [("request_id", "r1")] : Ctx String)).getD []) "request_id" ∧
      c ≠ [] := by
  obtain ⟨c, hc, hsvc, hkeep, hne⟩ :=
    (setup_logging_context_sets_service "svc"
      (some [("request_id", "r1")])).1
  exact ⟨c, hc, hsvc, hkeep "request_id" (by decide), hne⟩

end TurnusLogging
